import Mathlib

/-!
# Verification of the streaming storage backends (`src/streaming/storage.py`)

Shallow embedding of `BaseStorage`, `JSONLocalStorage` and `S3Storage` and their
save / load / cleanup operations, together with theorems settling the frozen
claims about them.

File and object contents are modelled as `List Nat` (byte strings).  The
serialization helpers from the repository's `util.stored` module
(`get_base64_digest`, `pickle_dumps_base64`, `pickle_loads_base64`,
`get_stored_meta`) and the standard `json` / `base64` codecs are not part of
the given sources, so they are modelled from the spec as lossless codecs with
never-empty output (a pickled payload, its base64 form, and a JSON document are
never the empty byte string); everything else is translated directly from
`storage.py`.
-/

namespace Storage

/-- A lossless serialization codec.  Modelled from the spec: a stored value is
"serializable/deserializable losslessly by the configured codec", and the
serialized form (a pickle, its base64 encoding, or a JSON document) is never
the empty byte string. -/
structure Codec (α : Type) where
  dumps : α → List Nat
  loads : List Nat → Option α
  roundtrip : ∀ v, loads (dumps v) = some v
  dumps_ne_nil : ∀ v, dumps v ≠ []

/-! ## A concrete executable codec for envelopes

Used to instantiate witnesses.  Lengths are encoded in unary over the token
`0` terminated by `1`; data bytes are shifted by `2` so they never collide
with the structural tokens. -/

def encLen (n : Nat) : List Nat := List.replicate n 0 ++ [1]

def decLen : List Nat → Option (Nat × List Nat)
  | [] => none
  | t :: rest =>
    if t = 1 then some (0, rest)
    else if t = 0 then
      match decLen rest with
      | some (n, r) => some (n + 1, r)
      | none => none
    else none

theorem decLen_encLen (n : Nat) (rest : List Nat) :
    decLen (encLen n ++ rest) = some (n, rest) := by
  induction n with
  | zero => simp [encLen, decLen]
  | succ k ih =>
    have h : encLen (k + 1) ++ rest = 0 :: (encLen k ++ rest) := by
      simp [encLen, List.replicate_succ]
    rw [h]
    simp [decLen, ih]

def decToks : Nat → List Nat → Option (List Nat × List Nat)
  | 0, rest => some ([], rest)
  | _ + 1, [] => none
  | n + 1, t :: rest =>
    if 2 ≤ t then
      match decToks n rest with
      | some (l, r) => some ((t - 2) :: l, r)
      | none => none
    else none

theorem decToks_enc (l : List Nat) (rest : List Nat) :
    decToks l.length (l.map (· + 2) ++ rest) = some (l, rest) := by
  induction l with
  | nil => simp [decToks]
  | cons a tl ih =>
    simp only [List.map_cons, List.cons_append, List.length_cons, decToks]
    have h2 : 2 ≤ a + 2 := by omega
    simp [h2, ih]

def encBytes (l : List Nat) : List Nat := encLen l.length ++ l.map (· + 2)

def decBytes (s : List Nat) : Option (List Nat × List Nat) :=
  match decLen s with
  | some (n, r) => decToks n r
  | none => none

theorem decBytes_encBytes (l rest : List Nat) :
    decBytes (encBytes l ++ rest) = some (l, rest) := by
  simp [encBytes, decBytes, List.append_assoc, decLen_encLen, decToks_enc]

theorem encBytes_ne_nil (l : List Nat) : encBytes l ≠ [] := by
  cases l <;> simp [encBytes, encLen]

/-! ## The envelope

`JSONLocalStorage.save` persists the JSON document
`{'key': base64(key), 'value': pickle_dumps_base64(value), 'meta': get_stored_meta()}`.
The `key` and `value` fields and the `meta` entries are byte strings. -/

structure Envelope where
  key : List Nat
  value : List Nat
  meta : List (List Nat × List Nat)
deriving DecidableEq

def encPair (p : List Nat × List Nat) : List Nat := encBytes p.1 ++ encBytes p.2

def decPairs : Nat → List Nat → Option (List (List Nat × List Nat) × List Nat)
  | 0, rest => some ([], rest)
  | n + 1, rest =>
    match decBytes rest with
    | some (a, r1) =>
      match decBytes r1 with
      | some (b, r2) =>
        match decPairs n r2 with
        | some (ps, r3) => some ((a, b) :: ps, r3)
        | none => none
      | none => none
    | none => none

theorem decPairs_enc (m : List (List Nat × List Nat)) (rest : List Nat) :
    decPairs m.length ((m.map encPair).flatten ++ rest) = some (m, rest) := by
  induction m with
  | nil => simp [decPairs]
  | cons p tl ih =>
    simp only [List.map_cons, List.flatten_cons, List.length_cons, decPairs, encPair,
      List.append_assoc, decBytes_encBytes]
    simp [ih]

/-- Concrete executable encoding of an envelope: the three fields in sequence,
with no trailing bytes allowed on decode. -/
def encEnvelope (e : Envelope) : List Nat :=
  encBytes e.key ++ encBytes e.value ++ (encLen e.meta.length ++ (e.meta.map encPair).flatten)

def decEnvelope (s : List Nat) : Option Envelope :=
  match decBytes s with
  | some (k, r1) =>
    match decBytes r1 with
    | some (v, r2) =>
      match decLen r2 with
      | some (n, r3) =>
        match decPairs n r3 with
        | some (m, r4) => if r4 = [] then some { key := k, value := v, meta := m } else none
        | none => none
      | none => none
    | none => none
  | none => none

theorem decEnvelope_encEnvelope (e : Envelope) : decEnvelope (encEnvelope e) = some e := by
  have hp := decPairs_enc e.meta []
  rw [List.append_nil] at hp
  have h : encEnvelope e =
      encBytes e.key ++ (encBytes e.value ++ (encLen e.meta.length ++ (e.meta.map encPair).flatten)) := by
    simp [encEnvelope]
  rw [h]
  simp [decEnvelope, decBytes_encBytes, decLen_encLen, hp]

/-- The concrete envelope codec used by witnesses. -/
def envelopeCodec : Codec Envelope where
  dumps := encEnvelope
  loads := decEnvelope
  roundtrip := decEnvelope_encEnvelope
  dumps_ne_nil := by
    intro e h
    have h1 : encBytes e.key = [] := by
      cases he : encBytes e.key with
      | nil => rfl
      | cons x xs => rw [encEnvelope, he] at h; simp at h
    exact encBytes_ne_nil e.key h1

/-- A concrete value codec (on `Nat`) used by witnesses: a single shifted token. -/
def natCodec : Codec Nat where
  dumps := fun n => [n + 2]
  loads := fun l =>
    match l with
    | [t] => if 2 ≤ t then some (t - 2) else none
    | _ => none
  roundtrip := by intro v; simp
  dumps_ne_nil := by intro v; simp

/-! ## Key digest and storage paths -/

/-- Modelled from the spec: `get_base64_digest` (defined in the repository's
`util.stored` module, which is not under `src/`) deterministically digests an
arbitrary key to a fixed-alphabet, filesystem/URL-safe identifier.  Modelled
as the decimal code points of the key's characters, each preceded by `x`. -/
def get_base64_digest (key : String) : String :=
  String.join (key.data.map (fun c => "x" ++ toString c.toNat))

/-- `BaseStorage._get_path_by_key`:
`f'{self.__class__.__name__}_{get_base64_digest(key)}'`. -/
def get_path_by_key (className key : String) : String :=
  className ++ "_" ++ get_base64_digest key

/-- `os.path.join(dirname, name)` for a relative `name`. -/
def osPathJoin (dirname name : String) : String := dirname ++ "/" ++ name

/-- `JSONLocalStorage._get_path_by_key`:
`os.path.join(self.dirname, super()._get_path_by_key(key))`. -/
def jsonLocalPathByKey (dirname key : String) : String :=
  osPathJoin dirname (get_path_by_key "JSONLocalStorage" key)

/-- The object name used by `S3Storage` (inherited `_get_path_by_key`). -/
def s3PathByKey (key : String) : String := get_path_by_key "S3Storage" key

/-! ## The local filesystem model

A directory tree is a map from paths to byte contents.  `none` means the file
does not exist. -/

def FS : Type := String → Option (List Nat)

def emptyFS : FS := fun _ => none

def setFile (fs : FS) (p : String) (c : List Nat) : FS :=
  fun q => if q = p then some c else fs q

def removeFile (fs : FS) (p : String) : FS :=
  fun q => if q = p then none else fs q

/-- Outcome of `open(path, 'r')` followed by `file.read()`. -/
inductive ReadOutcome where
  | notFound
  | ok (content : List Nat)
  | ioError (e : Nat)
deriving DecidableEq

/-- Reading a file in the nominal filesystem model: a present file yields its
content, a missing file raises `FileNotFoundError`. -/
def fsRead (fs : FS) (p : String) : ReadOutcome :=
  match fs p with
  | some c => ReadOutcome.ok c
  | none => ReadOutcome.notFound

/-- The shape of the `response` attribute consulted by
`S3Storage._is_not_found_error`: either a `collections.Mapping` (of which only
the `'Error'` entry is read, itself a string-to-string mapping) or some
non-mapping value. -/
inductive S3Response where
  | mapping (errorEntry : Option (List (String × String)))
  | notMapping
deriving DecidableEq

/-- An exception raised by the boto3 bucket: `getattr(exc, 'response', None)`
is `none` when the exception has no `response` attribute. -/
structure S3Exception where
  response : Option S3Response
deriving DecidableEq

/-- Errors a `load` can raise. -/
inductive StorageError where
  | corrupt
  | io (e : Nat)
  | transport (exc : S3Exception)
deriving DecidableEq

/-! ## JSONLocalStorage save and load -/

/-- Modelled from the spec: `base64.b64encode(key.encode()).decode()` stored in
the envelope's `key` field — an injective byte encoding of the key, modelled
as the key's character code points.  No claim under verification inspects this
field beyond its presence. -/
def b64encodeKey (key : String) : List Nat := key.data.map Char.toNat

/-- The byte string `JSONLocalStorage.save` writes for `(key, value)`:
the JSON document `{'key': ..., 'value': ..., 'meta': ...}` under the
envelope codec.  `meta` is the result of `get_stored_meta()` (from the absent
`util.stored` module), passed as a parameter. -/
def jsonEnvelopeBytes (envC : Codec Envelope) (valueBytes : List Nat) (key : String)
    (meta : List (List Nat × List Nat)) : List Nat :=
  envC.dumps { key := b64encodeKey key, value := valueBytes, meta := meta }

/-- `JSONLocalStorage.save`: writes the full JSON-encoded envelope at the
derived path, replacing any prior content. -/
def jsonSave {α : Type} (envC : Codec Envelope) (valC : Codec α) (fs : FS)
    (dirname key : String) (v : α) (meta : List (List Nat × List Nat)) : FS :=
  setFile fs (jsonLocalPathByKey dirname key) (jsonEnvelopeBytes envC (valC.dumps v) key meta)

/-- `JSONLocalStorage.load` given the outcome of opening and reading the file:
`FileNotFoundError` is caught and yields `None`; then
`return pickle_loads_base64(json.loads(content)['value']) if content else None` —
empty content short-circuits to `None`, any other content is JSON-parsed and
unpickled, with any failure of either step propagating as a hard error. -/
def jsonLoadFrom {α : Type} (envC : Codec Envelope) (valC : Codec α)
    (out : ReadOutcome) : Except StorageError (Option α) :=
  match out with
  | ReadOutcome.notFound => Except.ok none
  | ReadOutcome.ioError e => Except.error (StorageError.io e)
  | ReadOutcome.ok content =>
    if content = [] then Except.ok none
    else
      match envC.loads content with
      | none => Except.error StorageError.corrupt
      | some env =>
        match valC.loads env.value with
        | none => Except.error StorageError.corrupt
        | some v => Except.ok (some v)

/-- `JSONLocalStorage.load` over the nominal filesystem model. -/
def jsonLoad {α : Type} (envC : Codec Envelope) (valC : Codec α) (fs : FS)
    (dirname key : String) : Except StorageError (Option α) :=
  jsonLoadFrom envC valC (fsRead fs (jsonLocalPathByKey dirname key))

/-! ## S3Storage -/

/-- `S3Storage._is_not_found_error`: reads `getattr(exc, 'response', None)`,
requires it to be a `collections.Mapping`, takes `response.get('Error')`,
requires it to be truthy (non-empty) with both `'Code'` and `'Message'`
present, and compares them against `'404'` / `'Not Found'`. -/
def is_not_found_error (exc : S3Exception) : Bool :=
  match exc.response with
  | some (S3Response.mapping (some errorInfo)) =>
    if !errorInfo.isEmpty && (errorInfo.lookup "Code").isSome
        && (errorInfo.lookup "Message").isSome then
      decide (errorInfo.lookup "Code" = some "404")
        && decide (errorInfo.lookup "Message" = some "Not Found")
    else false
  | _ => false

/-- An S3 object: body bytes plus the object metadata attached on upload. -/
structure S3Object where
  body : List Nat
  metadata : List (String × String)
deriving DecidableEq

/-- A bucket is a map from object names to objects. -/
def BucketState : Type := String → Option S3Object

def emptyBucket : BucketState := fun _ => none

/-- `S3Storage.save`: a single put of the serialized payload as the object
body, with `{'key': key, **get_stored_meta()}` attached as object metadata. -/
def s3Save {α : Type} (valC : Codec α) (st : BucketState) (key : String) (v : α)
    (meta : List (String × String)) : BucketState :=
  fun q =>
    if q = s3PathByKey key then some { body := valC.dumps v, metadata := ("key", key) :: meta }
    else st q

/-- Outcome of `bucket.download_fileobj(path, file)`. -/
inductive DownloadOutcome where
  | ok (body : List Nat)
  | exn (exc : S3Exception)
deriving DecidableEq

/-- Modelled from the spec: the structured client error a boto3 bucket raises
for a missing object — `response['Error'] = {'Code': '404', 'Message': 'Not Found'}`. -/
def notFoundExc : S3Exception :=
  { response := some (S3Response.mapping (some [("Code", "404"), ("Message", "Not Found")])) }

/-- Modelled from the spec: downloading a present object yields its body;
downloading a missing object raises the structured 404 error. -/
def s3Download (st : BucketState) (path : String) : DownloadOutcome :=
  match st path with
  | some obj => DownloadOutcome.ok obj.body
  | none => DownloadOutcome.exn notFoundExc

/-- `S3Storage.load` given the outcome of the download: a raised exception is
re-raised unless `_is_not_found_error` recognizes it, in which case `None` is
returned; a downloaded body is unpickled unless empty
(`pickle_loads_base64(content) if content else None`). -/
def s3LoadFrom {α : Type} (valC : Codec α) (out : DownloadOutcome) :
    Except StorageError (Option α) :=
  match out with
  | DownloadOutcome.exn exc =>
    if is_not_found_error exc then Except.ok none
    else Except.error (StorageError.transport exc)
  | DownloadOutcome.ok body =>
    if body = [] then Except.ok none
    else
      match valC.loads body with
      | none => Except.error StorageError.corrupt
      | some v => Except.ok (some v)

/-- `S3Storage.load` over the nominal bucket model. -/
def s3Load {α : Type} (valC : Codec α) (st : BucketState) (key : String) :
    Except StorageError (Option α) :=
  s3LoadFrom valC (s3Download st (s3PathByKey key))

/-! ## Lockers and cleanup

The locker classes (`BaseLocker`, `FileLocker`) come from the repository's
`streaming.locker` module, which is not under `src/`; they are modelled
opaquely from the spec as an external mutual-exclusion capability. -/

/-- Modelled from the spec: an externally supplied locker — either the
file-based `FileLocker(dirname)` or any caller-supplied implementation. -/
inductive LockerModel where
  | fileLocker (dirname : String)
  | custom (id : Nat)
deriving DecidableEq

/-- Effects performed by `cleanup`, in order. -/
inductive CleanupAction where
  | storageDelete
  | lockerRelease
deriving DecidableEq

/-- `BaseExternalLockerStorage.cleanup`: `if self.locker: self.locker.cleanup(lock)`. -/
def lockerCleanupTrace (locker : Option LockerModel) : List CleanupAction :=
  match locker with
  | some _ => [CleanupAction.lockerRelease]
  | none => []

/-- Outcome of the deletion step (`os.remove` / `bucket.Object(...).delete()`). -/
inductive RemoveOutcome where
  | removed
  | notFound
  | osError (e : Nat)
deriving DecidableEq

/-- `JSONLocalStorage.cleanup` given the outcome of `os.remove`: only
`FileNotFoundError` is caught; any other `OSError` propagates before
`super().cleanup(key, lock)` runs. -/
def jsonCleanupFrom (locker : Option LockerModel) (out : RemoveOutcome) :
    Except Nat (List CleanupAction) :=
  match out with
  | RemoveOutcome.osError e => Except.error e
  | _ => Except.ok (CleanupAction.storageDelete :: lockerCleanupTrace locker)

/-- `S3Storage.cleanup` given the outcome of the object deletion: every
exception is caught (`except Exception: pass`) before `super().cleanup`. -/
def s3CleanupFrom (locker : Option LockerModel) (_out : RemoveOutcome) :
    Except Nat (List CleanupAction) :=
  Except.ok (CleanupAction.storageDelete :: lockerCleanupTrace locker)

/-- `os.remove` in the nominal filesystem model: removing a present file
succeeds, removing a missing file raises `FileNotFoundError`. -/
def fsRemove (fs : FS) (p : String) : RemoveOutcome × FS :=
  match fs p with
  | some _ => (RemoveOutcome.removed, removeFile fs p)
  | none => (RemoveOutcome.notFound, fs)

/-- `JSONLocalStorage.cleanup` over the nominal filesystem model. -/
def jsonCleanupRun (locker : Option LockerModel) (fs : FS) (dirname key : String) :
    Except Nat (List CleanupAction) × FS :=
  let r := fsRemove fs (jsonLocalPathByKey dirname key)
  (jsonCleanupFrom locker r.1, r.2)

/-- Modelled from the spec: deleting an S3 object succeeds whether or not the
object exists. -/
def bucketRemove (st : BucketState) (p : String) : RemoveOutcome × BucketState :=
  match st p with
  | some _ => (RemoveOutcome.removed, fun q => if q = p then none else st q)
  | none => (RemoveOutcome.removed, st)

/-- `S3Storage.cleanup` over the nominal bucket model. -/
def s3CleanupRun (locker : Option LockerModel) (st : BucketState) (key : String) :
    Except Nat (List CleanupAction) × BucketState :=
  let r := bucketRemove st (s3PathByKey key)
  (s3CleanupFrom locker r.1, r.2)

/-! ## Construction-time locker resolution -/

/-- The `locker` keyword argument of `JSONLocalStorage(...)`: omitted, an
explicit `None`, an explicit `DefaultNearbyFileLocker()` sentinel instance, or
an explicit locker. -/
inductive JsonLockerArg where
  | omitted
  | givenNone
  | givenDefaultSentinel
  | givenLocker (l : LockerModel)
deriving DecidableEq

/-- The `locker` field right after attrs initialization, of type
`Union[None, DefaultNearbyFileLocker, BaseLocker]`. -/
inductive JsonLockerField where
  | defaultNearby
  | noLocker
  | locker (l : LockerModel)
deriving DecidableEq

/-- attrs initialization of the `locker` field:
`attr.ib(factory=DefaultNearbyFileLocker, kw_only=True)` — an omitted argument
becomes a fresh `DefaultNearbyFileLocker` sentinel. -/
def jsonLocalAttrsInitLocker : JsonLockerArg → JsonLockerField
  | JsonLockerArg.omitted => JsonLockerField.defaultNearby
  | JsonLockerArg.givenDefaultSentinel => JsonLockerField.defaultNearby
  | JsonLockerArg.givenNone => JsonLockerField.noLocker
  | JsonLockerArg.givenLocker l => JsonLockerField.locker l

/-- `JSONLocalStorage.__attrs_post_init__`:
`if isinstance(self.locker, self.DefaultNearbyFileLocker): self.locker = FileLocker(self.dirname)`. -/
def jsonLocalPostInitLocker (dirname : String) : JsonLockerField → Option LockerModel
  | JsonLockerField.defaultNearby => some (LockerModel.fileLocker dirname)
  | JsonLockerField.noLocker => none
  | JsonLockerField.locker l => some l

/-- The locker a freshly constructed `JSONLocalStorage(dirname, locker=arg)`
holds. -/
def jsonLocalResolvedLocker (dirname : String) (arg : JsonLockerArg) : Option LockerModel :=
  jsonLocalPostInitLocker dirname (jsonLocalAttrsInitLocker arg)

/-- The `locker` keyword argument of `S3Storage(...)`. -/
inductive S3LockerArg where
  | omitted
  | givenNone
  | givenLocker (l : LockerModel)
deriving DecidableEq

/-- The locker a freshly constructed `S3Storage(bucket, locker=arg)` holds:
`BaseExternalLockerStorage.locker = attr.ib(default=None, kw_only=True)` and no
post-init hook. -/
def s3ResolvedLocker : S3LockerArg → Option LockerModel
  | S3LockerArg.omitted => none
  | S3LockerArg.givenNone => none
  | S3LockerArg.givenLocker l => some l

/-! ## Intermediate states of `JSONLocalStorage.save`

`save` executes `with open(path, 'w') as file: json.dump(data, file, ...)`:
the target path itself is opened with mode `w`, which truncates it, and the
encoded envelope is then written sequentially.  There is no temporary file and
no rename, so the contents observable at the target path during the write are
exactly the prefixes of the new envelope bytes, starting with the empty
truncation. -/

def jsonSavePartialContents (envC : Codec Envelope) (valueBytes : List Nat)
    (key : String) (meta : List (List Nat × List Nat)) : List (List Nat) :=
  (jsonEnvelopeBytes envC valueBytes key meta).inits

def jsonSavePartialStates {α : Type} (envC : Codec Envelope) (valC : Codec α)
    (fs : FS) (dirname key : String) (v : α) (meta : List (List Nat × List Nat)) : List FS :=
  (jsonSavePartialContents envC (valC.dumps v) key meta).map
    (setFile fs (jsonLocalPathByKey dirname key))

/-! ## Two backends of different types over one shared substrate

For cross-backend isolation, a second backend of a different type shares the
same underlying directory: its object named `n` lives in the file
`osPathJoin dirname n`, so its physical name for key `K` is derived through
its own `_get_path_by_key` prefix, `S3Storage_...`, while the local JSON
backend uses `JSONLocalStorage_...`. -/

/-- A bucket-style download backed by the shared directory. -/
def s3DownloadShared (fs : FS) (dirname path : String) : DownloadOutcome :=
  match fs (osPathJoin dirname path) with
  | some c => DownloadOutcome.ok c
  | none => DownloadOutcome.exn notFoundExc

/-- `S3Storage.load` for an object backend sharing the directory. -/
def s3LoadShared {α : Type} (valC : Codec α) (fs : FS) (dirname key : String) :
    Except StorageError (Option α) :=
  s3LoadFrom valC (s3DownloadShared fs dirname (s3PathByKey key))

/-- `S3Storage.save` for an object backend sharing the directory: the payload
bytes stored under the S3-derived name. -/
def s3SaveShared {α : Type} (valC : Codec α) (fs : FS) (dirname key : String) (v : α) : FS :=
  setFile fs (osPathJoin dirname (s3PathByKey key)) (valC.dumps v)

/-! ## Basic lemmas about the filesystem and bucket models -/

theorem setFile_same (fs : FS) (p : String) (c : List Nat) : setFile fs p c p = some c := by
  simp [setFile]

theorem setFile_other (fs : FS) (p q : String) (c : List Nat) (h : q ≠ p) :
    setFile fs p c q = fs q := by
  simp [setFile, h]

theorem fsRead_setFile (fs : FS) (p : String) (c : List Nat) :
    fsRead (setFile fs p c) p = ReadOutcome.ok c := by
  simp [fsRead, setFile]

theorem removeFile_same (fs : FS) (p : String) : removeFile fs p p = none := by
  simp [removeFile]

/-! ## Path lemmas -/

theorem string_eq_of_data_eq {a b : String} (h : a.data = b.data) : a = b := by
  cases a; cases b; simp_all

/-- The derived storage ids of the two backend types never coincide, for any
pair of keys: the id is prefixed with the backend class name. -/
theorem get_path_by_key_json_ne_s3 (k1 k2 : String) :
    get_path_by_key "JSONLocalStorage" k1 ≠ get_path_by_key "S3Storage" k2 := by
  intro h
  have hd := congrArg String.data h
  rw [get_path_by_key, get_path_by_key, String.data_append, String.data_append,
    String.data_append, String.data_append] at hd
  have h1 : ("JSONLocalStorage" : String).data = 'J' :: "SONLocalStorage".data := rfl
  have h2 : ("S3Storage" : String).data = 'S' :: "3Storage".data := rfl
  rw [h1, h2] at hd
  simp at hd

theorem osPathJoin_inj_right (d a b : String) (h : osPathJoin d a = osPathJoin d b) : a = b := by
  have hd := congrArg String.data h
  rw [osPathJoin, osPathJoin, String.data_append, String.data_append,
    String.data_append, String.data_append] at hd
  exact string_eq_of_data_eq (List.append_cancel_left hd)

theorem jsonPath_ne_shared_s3Path (d k1 k2 : String) :
    jsonLocalPathByKey d k1 ≠ osPathJoin d (s3PathByKey k2) := by
  intro h
  exact get_path_by_key_json_ne_s3 k1 k2 (osPathJoin_inj_right d _ _ h)

/-! ## The claims -/

/-- C1: for every key and every serializable value, and for both backends,
`save(K, V)` followed by `load(K)` on the same backend returns a value
observably equal to `V`.  Quantified over every lossless codec (the
serialization helpers are outside the given sources and modelled from the
spec). -/
theorem c1_save_load_round_trip {α : Type} (envC : Codec Envelope) (valC : Codec α)
    (fs : FS) (st : BucketState) (dirname key : String) (v : α)
    (fmeta : List (List Nat × List Nat)) (ometa : List (String × String)) :
    jsonLoad envC valC (jsonSave envC valC fs dirname key v fmeta) dirname key
      = Except.ok (some v)
    ∧ s3Load valC (s3Save valC st key v ometa) key = Except.ok (some v) := by
  constructor
  · rw [jsonLoad, jsonSave, fsRead_setFile, jsonLoadFrom]
    simp [jsonEnvelopeBytes, envC.dumps_ne_nil, envC.roundtrip, valC.roundtrip]
  · have hobj : s3Save valC st key v ometa (s3PathByKey key)
        = some { body := valC.dumps v, metadata := ("key", key) :: ometa } := by
      simp [s3Save]
    rw [s3Load, s3Download, hobj, s3LoadFrom]
    simp [valC.dumps_ne_nil, valC.roundtrip]

/-- C8: a `JSONLocalStorage` constructed with the `locker` argument omitted
resolves it at construction to a `FileLocker` on the same directory; an
explicit locker, or an explicit `None`, is kept unchanged; `S3Storage`
applies no default locker. -/
theorem c8_locker_resolution (dirname : String) (l : LockerModel) :
    jsonLocalResolvedLocker dirname JsonLockerArg.omitted
      = some (LockerModel.fileLocker dirname)
    ∧ jsonLocalResolvedLocker dirname JsonLockerArg.givenNone = none
    ∧ jsonLocalResolvedLocker dirname (JsonLockerArg.givenLocker l) = some l
    ∧ s3ResolvedLocker S3LockerArg.omitted = none :=
  ⟨rfl, rfl, rfl, rfl⟩

/-- C9: the derived storage id is a pure function of (backend type name, key)
— in this embedding `get_path_by_key` is a mathematical function of exactly
that pair, so stability across calls and restarts holds by construction — and
ids of the two backend types never collide, so over a shared directory a save
through one backend type leaves the other type's `load` result for the same
key untouched (in particular it cannot make it succeed). -/
theorem c9_digest_and_cross_backend_isolation {α : Type} (envC : Codec Envelope)
    (valC : Codec α) (fs : FS) (dirname key k1 k2 : String) (v : α)
    (fmeta : List (List Nat × List Nat)) :
    get_path_by_key "JSONLocalStorage" k1 ≠ get_path_by_key "S3Storage" k2
    ∧ s3LoadShared valC (jsonSave envC valC fs dirname key v fmeta) dirname key
      = s3LoadShared valC fs dirname key
    ∧ jsonLoad envC valC (s3SaveShared valC fs dirname key v) dirname key
      = jsonLoad envC valC fs dirname key := by
  refine ⟨get_path_by_key_json_ne_s3 k1 k2, ?_, ?_⟩
  · rw [s3LoadShared, s3LoadShared, jsonSave, s3DownloadShared, s3DownloadShared,
      setFile_other _ _ _ _ (fun hq => jsonPath_ne_shared_s3Path dirname key key hq.symm)]
  · rw [jsonLoad, jsonLoad, s3SaveShared, fsRead, fsRead,
      setFile_other _ _ _ _ (jsonPath_ne_shared_s3Path dirname key key)]

/-- C10: on both backends, a present but empty persisted entity (empty file,
zero-byte object body) makes `load` return absent instead of raising: the
source guards deserialization with `... if content else None`. -/
theorem c10_empty_content_loads_absent {α : Type} (envC : Codec Envelope) (valC : Codec α)
    (fs : FS) (st : BucketState) (dirname key : String) (md : List (String × String))
    (h1 : fs (jsonLocalPathByKey dirname key) = some [])
    (h2 : st (s3PathByKey key) = some { body := [], metadata := md }) :
    jsonLoad envC valC fs dirname key = Except.ok none
    ∧ s3Load valC st key = Except.ok none := by
  constructor
  · rw [jsonLoad, fsRead, h1, jsonLoadFrom]
    simp
  · rw [s3Load, s3Download, h2, s3LoadFrom]
    simp

/-- Witness for C10 at a concrete empty file and a concrete zero-byte object. -/
theorem c10_empty_content_loads_absent_witness :
    jsonLoad envelopeCodec natCodec
        (setFile emptyFS (jsonLocalPathByKey "/tmp" "k") []) "/tmp" "k"
      = Except.ok none
    ∧ s3Load natCodec
        (fun q => if q = s3PathByKey "k" then some { body := [], metadata := [] } else none) "k"
      = Except.ok none :=
  c10_empty_content_loads_absent envelopeCodec natCodec
    (setFile emptyFS (jsonLocalPathByKey "/tmp" "k") [])
    (fun q => if q = s3PathByKey "k" then some { body := [], metadata := [] } else none)
    "/tmp" "k" [] (setFile_same emptyFS (jsonLocalPathByKey "/tmp" "k") []) (by simp)

/-- C5 counterexample: the claim says every deletion error inside `cleanup` is
suppressed on both backends.  On the file backend `os.remove` is guarded only
by `except FileNotFoundError`, so a permission error (`errno 13`) propagates
and the lock release is never reached. -/
theorem c5_counterexample :
    jsonCleanupFrom (some (LockerModel.fileLocker "/tmp")) (RemoveOutcome.osError 13)
      = Except.error 13 := rfl

/-- C5 amended: the S3 backend suppresses every deletion error; the file
backend suppresses only `FileNotFoundError` — any other deletion error
propagates out of `cleanup`, skipping the lock release. -/
theorem c5_amended_cleanup_suppression (locker : Option LockerModel) (e : Nat)
    (out : RemoveOutcome) :
    jsonCleanupFrom locker RemoveOutcome.notFound
      = Except.ok (CleanupAction.storageDelete :: lockerCleanupTrace locker)
    ∧ jsonCleanupFrom locker (RemoveOutcome.osError e) = Except.error e
    ∧ s3CleanupFrom locker out
      = Except.ok (CleanupAction.storageDelete :: lockerCleanupTrace locker) :=
  ⟨rfl, rfl, rfl⟩

/-- C6: in every successful `cleanup` on either backend, the storage deletion
is the first effect and the locker's cleanup comes after it, and the lock
release appears exactly when a locker is configured. -/
theorem c6_delete_before_lock_release (locker : Option LockerModel)
    (out : RemoveOutcome) (trace : List CleanupAction)
    (h : jsonCleanupFrom locker out = Except.ok trace
      ∨ s3CleanupFrom locker out = Except.ok trace) :
    trace.head? = some CleanupAction.storageDelete
    ∧ (CleanupAction.lockerRelease ∈ trace ↔ locker.isSome) := by
  have htr : trace = CleanupAction.storageDelete :: lockerCleanupTrace locker := by
    rcases h with h | h
    · cases out <;> simp [jsonCleanupFrom] at h <;> exact h.symm
    · simp [s3CleanupFrom] at h
      exact h.symm
  subst htr
  cases locker <;> simp [lockerCleanupTrace]

/-- Witness for C6: the concrete trace of a file-backend cleanup with a
configured locker. -/
theorem c6_delete_before_lock_release_witness :
    ([CleanupAction.storageDelete, CleanupAction.lockerRelease].head?
        = some CleanupAction.storageDelete)
    ∧ (CleanupAction.lockerRelease ∈ [CleanupAction.storageDelete, CleanupAction.lockerRelease]
        ↔ (some (LockerModel.fileLocker "/tmp")).isSome) :=
  c6_delete_before_lock_release (some (LockerModel.fileLocker "/tmp")) RemoveOutcome.removed
    [CleanupAction.storageDelete, CleanupAction.lockerRelease] (Or.inl rfl)

/-- C7: cleanup is idempotent with respect to the stored envelope, on both
backends: after a first cleanup the entity is gone, a second cleanup
nevertheless succeeds, and cleaning up an already-absent key is a no-op, not
an error. -/
theorem c7_cleanup_idempotent (locker : Option LockerModel) (fs : FS)
    (st : BucketState) (dirname key : String) :
    (jsonCleanupRun locker (jsonCleanupRun locker fs dirname key).2 dirname key).1
      = Except.ok (CleanupAction.storageDelete :: lockerCleanupTrace locker)
    ∧ (fs (jsonLocalPathByKey dirname key) = none →
        jsonCleanupRun locker fs dirname key
          = (Except.ok (CleanupAction.storageDelete :: lockerCleanupTrace locker), fs))
    ∧ (s3CleanupRun locker (s3CleanupRun locker st key).2 key).1
      = Except.ok (CleanupAction.storageDelete :: lockerCleanupTrace locker)
    ∧ (st (s3PathByKey key) = none →
        s3CleanupRun locker st key
          = (Except.ok (CleanupAction.storageDelete :: lockerCleanupTrace locker), st)) := by
  refine ⟨?_, ?_, ?_, ?_⟩
  · rw [jsonCleanupRun, jsonCleanupRun]
    cases hp : fs (jsonLocalPathByKey dirname key) with
    | none => simp [fsRemove, hp, jsonCleanupFrom]
    | some c => simp [fsRemove, hp, removeFile_same, jsonCleanupFrom]
  · intro hp
    rw [jsonCleanupRun]
    simp [fsRemove, hp, jsonCleanupFrom]
  · rw [s3CleanupRun, s3CleanupRun]
    cases hp : st (s3PathByKey key) with
    | none => simp [bucketRemove, hp, s3CleanupFrom]
    | some obj => simp [bucketRemove, hp, s3CleanupFrom]
  · intro hp
    rw [s3CleanupRun]
    simp [bucketRemove, hp, s3CleanupFrom]

/-- Witness for C7 at a concrete directory, bucket and key. -/
theorem c7_cleanup_idempotent_witness :
    jsonCleanupRun (none : Option LockerModel) emptyFS "/tmp" "k"
      = (Except.ok [CleanupAction.storageDelete], emptyFS)
    ∧ s3CleanupRun (none : Option LockerModel) emptyBucket "k"
      = (Except.ok [CleanupAction.storageDelete], emptyBucket) := by
  have h := c7_cleanup_idempotent (none : Option LockerModel) emptyFS emptyBucket "/tmp" "k"
  exact ⟨h.2.1 rfl, h.2.2.2 rfl⟩

/-- C3 counterexample: a present envelope whose content is empty fails to
deserialize (`json.loads('')` cannot succeed: the empty byte string decodes to
no envelope), yet `load` returns absent instead of raising — the source short-
circuits on falsy content before deserializing. -/
theorem c3_counterexample :
    (setFile emptyFS (jsonLocalPathByKey "/tmp" "k") []) (jsonLocalPathByKey "/tmp" "k")
      = some []
    ∧ envelopeCodec.loads [] = none
    ∧ jsonLoad envelopeCodec natCodec
        (setFile emptyFS (jsonLocalPathByKey "/tmp" "k") []) "/tmp" "k" = Except.ok none := by
  refine ⟨setFile_same _ _ _, rfl, ?_⟩
  rw [jsonLoad, fsRead_setFile, jsonLoadFrom]
  simp

/-- C3 amended: on both backends, a present envelope with NONEMPTY content
that fails to deserialize makes `load` raise a hard error propagated to the
caller; a present but empty content is instead treated as absent. -/
theorem c3_amended_corrupt_is_hard_error {α : Type} (envC : Codec Envelope)
    (valC : Codec α) (content : List Nat) (hne : content ≠ []) :
    ((envC.loads content = none
        ∨ ∃ env, envC.loads content = some env ∧ valC.loads env.value = none) →
      jsonLoadFrom envC valC (ReadOutcome.ok content) = Except.error StorageError.corrupt)
    ∧ (valC.loads content = none →
      s3LoadFrom valC (DownloadOutcome.ok content) = Except.error StorageError.corrupt) := by
  constructor
  · intro h
    rw [jsonLoadFrom]
    rcases h with h | ⟨env, henv, hval⟩
    · simp [hne, h]
    · simp [hne, henv, hval]
  · intro h
    rw [s3LoadFrom]
    simp [hne, h]

/-- Witness for the amended C3 at the concrete undecodable content `[0]`. -/
theorem c3_amended_corrupt_is_hard_error_witness :
    jsonLoadFrom envelopeCodec natCodec (ReadOutcome.ok [0])
      = Except.error StorageError.corrupt
    ∧ s3LoadFrom natCodec (DownloadOutcome.ok [0])
      = Except.error StorageError.corrupt := by
  have h := c3_amended_corrupt_is_hard_error envelopeCodec natCodec [0] (by decide)
  exact ⟨h.1 (Or.inl (by decide)), h.2 (by decide)⟩

/-- C4 counterexample: the claim says `load` returns absent exactly when the
backend reports not-found.  Here the file exists (the read succeeds with empty
content, no `FileNotFoundError` is raised) and `load` still returns absent. -/
theorem c4_counterexample :
    fsRead (setFile emptyFS (jsonLocalPathByKey "/tmp" "k") [])
        (jsonLocalPathByKey "/tmp" "k") = ReadOutcome.ok []
    ∧ jsonLoad envelopeCodec natCodec
        (setFile emptyFS (jsonLocalPathByKey "/tmp" "k") []) "/tmp" "k" = Except.ok none := by
  refine ⟨fsRead_setFile _ _ _, ?_⟩
  rw [jsonLoad, fsRead_setFile, jsonLoadFrom]
  simp

/-- `_is_not_found_error` holds exactly for exceptions whose structured
`Error` mapping carries `Code = '404'` and `Message = 'Not Found'`. -/
theorem is_not_found_error_iff (exc : S3Exception) :
    is_not_found_error exc = true
    ↔ ∃ errorInfo, exc.response = some (S3Response.mapping (some errorInfo))
        ∧ errorInfo.lookup "Code" = some "404"
        ∧ errorInfo.lookup "Message" = some "Not Found" := by
  obtain ⟨resp⟩ := exc
  cases resp with
  | none => simp [is_not_found_error]
  | some r =>
    cases r with
    | notMapping => simp [is_not_found_error]
    | mapping errorEntry =>
      cases errorEntry with
      | none => simp [is_not_found_error]
      | some errorInfo =>
        constructor
        · intro h
          by_cases hg : (!errorInfo.isEmpty && (errorInfo.lookup "Code").isSome
              && (errorInfo.lookup "Message").isSome) = true
          · simp only [is_not_found_error, hg, if_true, Bool.and_eq_true,
              decide_eq_true_eq] at h
            exact ⟨errorInfo, rfl, h.1, h.2⟩
          · simp only [is_not_found_error, hg, if_false] at h
            cases h
        · rintro ⟨ei, hei, hcode, hmsg⟩
          have heq : ei = errorInfo := by
            simp only [Option.some.injEq, S3Response.mapping.injEq] at hei
            exact hei.symm
          subst heq
          have hne : ei.isEmpty = false := by
            cases ei with
            | nil => simp [List.lookup] at hcode
            | cons p tl => simp [List.isEmpty]
          simp [is_not_found_error, hne, hcode, hmsg]

/-- C4 amended: `load` returns absent exactly when the backend reports
not-found — for the file backend a missing file, for the object backend an
exception whose structured `Error` mapping carries `Code = '404'` and
`Message = 'Not Found'` — or when the stored content is empty.  Every other
error propagates: local read errors, and bucket exceptions not of that exact
shape. -/
theorem c4_amended_absent_exactly_on_not_found_or_empty {α : Type}
    (envC : Codec Envelope) (valC : Codec α) (out : ReadOutcome) (e : Nat)
    (exc : S3Exception) (dl : DownloadOutcome) :
    (jsonLoadFrom envC valC out = Except.ok none
      ↔ out = ReadOutcome.notFound ∨ out = ReadOutcome.ok [])
    ∧ jsonLoadFrom envC valC (ReadOutcome.ioError e) = Except.error (StorageError.io e)
    ∧ (is_not_found_error exc = false →
        s3LoadFrom valC (DownloadOutcome.exn exc)
          = Except.error (StorageError.transport exc))
    ∧ (s3LoadFrom valC dl = Except.ok none
      ↔ (∃ exc2, dl = DownloadOutcome.exn exc2 ∧ is_not_found_error exc2 = true)
        ∨ dl = DownloadOutcome.ok [])
    ∧ (is_not_found_error exc = true
      ↔ ∃ errorInfo, exc.response = some (S3Response.mapping (some errorInfo))
          ∧ errorInfo.lookup "Code" = some "404"
          ∧ errorInfo.lookup "Message" = some "Not Found") := by
  refine ⟨?_, rfl, ?_, ?_, is_not_found_error_iff exc⟩
  · constructor
    · intro h
      cases out with
      | notFound => exact Or.inl rfl
      | ioError e2 => simp [jsonLoadFrom] at h
      | ok content =>
        refine Or.inr ?_
        by_cases hc : content = []
        · rw [hc]
        · exfalso
          cases henv : envC.loads content with
          | none => simp [jsonLoadFrom, hc, henv] at h
          | some env =>
            cases hval : valC.loads env.value with
            | none => simp [jsonLoadFrom, hc, henv, hval] at h
            | some v => simp [jsonLoadFrom, hc, henv, hval] at h
    · intro h
      rcases h with h | h <;> subst h <;> simp [jsonLoadFrom]
  · intro h
    rw [s3LoadFrom]
    simp [h]
  · constructor
    · intro h
      cases dl with
      | exn exc2 =>
        by_cases hnf : is_not_found_error exc2 = true
        · exact Or.inl ⟨exc2, rfl, hnf⟩
        · simp [s3LoadFrom, hnf] at h
      | ok body =>
        refine Or.inr ?_
        by_cases hb : body = []
        · rw [hb]
        · exfalso
          cases hval : valC.loads body with
          | none => simp [s3LoadFrom, hb, hval] at h
          | some v => simp [s3LoadFrom, hb, hval] at h
    · intro h
      rcases h with ⟨exc2, hdl, hnf⟩ | h
      · subst hdl
        simp [s3LoadFrom, hnf]
      · subst h
        simp [s3LoadFrom]

/-- Witness for the amended C4: a missing file reads as absent, and a bucket
exception with no structured `response` propagates as a transport error. -/
theorem c4_amended_witness :
    jsonLoadFrom envelopeCodec natCodec ReadOutcome.notFound = Except.ok none
    ∧ s3LoadFrom natCodec (DownloadOutcome.exn { response := none })
      = Except.error (StorageError.transport { response := none }) := by
  have h := c4_amended_absent_exactly_on_not_found_or_empty envelopeCodec natCodec
    ReadOutcome.notFound 0 { response := none } (DownloadOutcome.ok [])
  exact ⟨h.1.mpr (Or.inl rfl), h.2.2.1 (by decide)⟩

theorem inits_map_head {β : Type} (f : List Nat → β) (l : List Nat) :
    ((l.inits).map f).head? = some (f []) := by
  cases l <;> simp [List.inits]

/-- C2 counterexample: `JSONLocalStorage.save` opens the target path itself
with mode `'w'` — truncating it in place — and then writes; there is no
temporary file and no rename.  Concretely, after value `7` was saved under key
`"k"`, saving value `9` passes through an observable state (the truncation,
the first intermediate state) whose content at the target path is neither the
complete prior envelope nor the complete new one, and a load in that state
sees neither value. -/
theorem c2_counterexample :
    (jsonSavePartialStates envelopeCodec natCodec
        (jsonSave envelopeCodec natCodec emptyFS "/tmp" "k" 7 []) "/tmp" "k" 9 []).head?
      = some (setFile (jsonSave envelopeCodec natCodec emptyFS "/tmp" "k" 7 [])
          (jsonLocalPathByKey "/tmp" "k") [])
    ∧ (setFile (jsonSave envelopeCodec natCodec emptyFS "/tmp" "k" 7 [])
          (jsonLocalPathByKey "/tmp" "k") []) (jsonLocalPathByKey "/tmp" "k")
      ≠ (jsonSave envelopeCodec natCodec emptyFS "/tmp" "k" 7 []) (jsonLocalPathByKey "/tmp" "k")
    ∧ (setFile (jsonSave envelopeCodec natCodec emptyFS "/tmp" "k" 7 [])
          (jsonLocalPathByKey "/tmp" "k") []) (jsonLocalPathByKey "/tmp" "k")
      ≠ some (jsonEnvelopeBytes envelopeCodec (natCodec.dumps 9) "k" [])
    ∧ jsonLoad envelopeCodec natCodec
        (setFile (jsonSave envelopeCodec natCodec emptyFS "/tmp" "k" 7 [])
          (jsonLocalPathByKey "/tmp" "k") []) "/tmp" "k"
      = Except.ok none := by
  refine ⟨inits_map_head _ _, by decide, by decide, ?_⟩
  rw [jsonLoad, fsRead_setFile, jsonLoadFrom]
  simp

/-- C2 amended: `JSONLocalStorage.save` writes the envelope in place at the
target path (truncate, then sequential write) rather than via a temporary
file and atomic rename: the first observable intermediate state has the
target truncated to empty — a reader of the key there observes neither the
prior envelope nor the new one, but absent — the completed write is among the
observable states, and every intermediate state differs from the prior
filesystem only at the target path (no temporary location is ever written).
The object backend's save is a single atomic replacement of the object, after
which a load returns the new value. -/
theorem c2_amended_save_not_atomic {α : Type} (envC : Codec Envelope) (valC : Codec α)
    (fs : FS) (st : BucketState) (dirname key : String) (v : α)
    (fmeta : List (List Nat × List Nat)) (ometa : List (String × String)) :
    (jsonSavePartialStates envC valC fs dirname key v fmeta).head?
      = some (setFile fs (jsonLocalPathByKey dirname key) [])
    ∧ jsonLoad envC valC (setFile fs (jsonLocalPathByKey dirname key) []) dirname key
      = Except.ok none
    ∧ jsonSave envC valC fs dirname key v fmeta
      ∈ jsonSavePartialStates envC valC fs dirname key v fmeta
    ∧ (∀ fs2 ∈ jsonSavePartialStates envC valC fs dirname key v fmeta,
        ∀ q, q ≠ jsonLocalPathByKey dirname key → fs2 q = fs q)
    ∧ s3Load valC (s3Save valC st key v ometa) key = Except.ok (some v) := by
  refine ⟨inits_map_head _ _, ?_, ?_, ?_, ?_⟩
  · rw [jsonLoad, fsRead_setFile, jsonLoadFrom]
    simp
  · exact List.mem_map.mpr
      ⟨jsonEnvelopeBytes envC (valC.dumps v) key fmeta,
        (List.mem_inits _ _).mpr List.prefix_rfl, rfl⟩
  · intro fs2 hmem q hq
    rcases List.mem_map.mp hmem with ⟨c, _, hc⟩
    rw [← hc]
    exact setFile_other fs _ q c hq
  · have hobj : s3Save valC st key v ometa (s3PathByKey key)
        = some { body := valC.dumps v, metadata := ("key", key) :: ometa } := by
      simp [s3Save]
    rw [s3Load, s3Download, hobj, s3LoadFrom]
    simp [valC.dumps_ne_nil, valC.roundtrip]

/-- Witness for the amended C2: the truncated state reads as absent, and an
intermediate state of a concrete save leaves an unrelated path untouched. -/
theorem c2_amended_save_not_atomic_witness :
    jsonLoad envelopeCodec natCodec
        (setFile emptyFS (jsonLocalPathByKey "/tmp" "k") []) "/tmp" "k" = Except.ok none
    ∧ jsonSave envelopeCodec natCodec emptyFS "/tmp" "k" 9 [] "/other" = emptyFS "/other" := by
  have h := c2_amended_save_not_atomic envelopeCodec natCodec emptyFS emptyBucket
    "/tmp" "k" 9 [] []
  exact ⟨h.2.1, h.2.2.2.1 _ h.2.2.1 "/other" (by decide)⟩

end Storage
